import Mathlib

/-!
Verification of the nhk-weather-parser report pipeline.

Shallow embedding of the Python sources:
- `nhk_weather/services/ai.py` (`DeepSeekClient.translate`, `CITY_TRANSLATIONS`)
- `nhk_weather/services/telegram.py` (`TelegramClient.send_message` / `send_photo` /
  `send_weather_report`)
- `nhk_weather/services/browser.py` (`BrowserScraper.process`)
- `run.py` (`WeatherReporter._categorize_weather`)

Python dicts are embedded as association lists (`PyDict`) with Python's
`get` / `update` / `in` semantics; the opaque chat-completion capability is
embedded as an oracle giving each round's outcome; the messaging transport is
embedded as an oracle over send attempts together with an event trace.
-/

namespace NhkWeather

/-! ## Python dict model -/

/-- A Python `Dict[str, str]`: association list, first binding wins on lookup
(by construction keys stay unique, as in a real dict). -/
abbrev PyDict := List (String × String)

/-- Lookup of a key, first matching binding. -/
def dlookup (d : PyDict) (k : String) : Option String :=
  match d with
  | [] => none
  | p :: tl => if p.1 = k then some p.2 else dlookup tl k

/-- Python `k in d`. -/
def dmem (d : PyDict) (k : String) : Bool :=
  (dlookup d k).isSome

/-- Python `d.get(k, dflt)`. -/
def dget (d : PyDict) (k dflt : String) : String :=
  (dlookup d k).getD dflt

/-- Python `d[k] = v`: overwrite in place if the key is present, else append
(dict insertion order). -/
def dset (d : PyDict) (k v : String) : PyDict :=
  if (dlookup d k).isSome then
    d.map (fun p => if p.1 = k then (k, v) else p)
  else
    d ++ [(k, v)]

/-- Python `d.update(other)`: set every binding of `other` in `d`, in order. -/
def dupdate (d : PyDict) (other : List (String × String)) : PyDict :=
  other.foldl (fun acc p => dset acc p.1 p.2) d

/-! ## `services/ai.py`: validation, seed cache, `DeepSeekClient.translate` -/

/-- One character of the regex class `[А-ЯЁа-яё]` (`DeepSeekClient._cyrillic_re`). -/
def isCyrillicChar (c : Char) : Bool :=
  ('А' ≤ c && c ≤ 'Я') || c = 'Ё' || ('а' ≤ c && c ≤ 'я') || c = 'ё'

/-- `self._cyrillic_re.search(s)` finds a match. -/
def hasCyrillic (s : String) : Bool :=
  s.data.any isCyrillicChar

/-- The acceptance test of a candidate translation in `translate`:
`if ru and self._cyrillic_re.search(ru)`. -/
def validRu (ru : String) : Bool :=
  !(ru = "") && hasCyrillic ru

/-- Python `str.strip()`: drop leading and trailing whitespace. -/
def pyStrip (s : String) : String :=
  ⟨((s.data.dropWhile Char.isWhitespace).reverse.dropWhile Char.isWhitespace).reverse⟩

/-- The seeded translation dictionary `CITY_TRANSLATIONS` of `ai.py`. -/
def CITY_TRANSLATIONS : PyDict :=
  [("東京", "Токио"), ("長野", "Нагано"), ("新潟", "Ниигата"), ("小笠原", "Огасавара"),
   ("大阪", "Осака"), ("名古屋", "Нагоя"), ("金沢", "Канадзава"), ("広島", "Хиросима"),
   ("松江", "Мацуэ"), ("福岡", "Фукуока"), ("鹿児島", "Кагосима"), ("那覇", "Наха"),
   ("仙台", "Сэндай"), ("秋田", "Акита"), ("札幌", "Саппоро"), ("釧路", "Кусиро"),
   ("高知", "Коти")]

/-- Outcome of one round's `self.chat(...)` call and JSON extraction, seen from
`translate`'s control flow:
- `err`: the chat call raised (`RuntimeError` on non-200 status or transport error);
- `noJson`: the chat reply carried no parsable `{...}` object (missing delimiters
  or `json.JSONDecodeError`), logged and treated as zero translations;
- `parsed data`: a JSON object mapping term → candidate translation was parsed. -/
inductive RoundResp where
  | err : RoundResp
  | noJson : RoundResp
  | parsed : List (String × String) → RoundResp
deriving DecidableEq

/-- The `while missing and attempt <= max_retries` loop of `translate`
(lines 159–189 of `ai.py`). `resps i` is the outcome of the chat call of round
`i`; `fuel` is the number of attempts still allowed (`max_retries + 1` at entry).
Returns the final `(missing, result)` pair, or an error when a round's chat call
raised (the source has no `except` around `self.chat`, so the exception escapes
the loop). Each round partitions the parsed object into `good` (non-empty value
containing a Cyrillic character, stored stripped) and `bad` (the remaining keys),
merges `good` into `result` and replaces `missing` by `bad`. -/
def translateRounds (resps : Nat → RoundResp) : Nat → Nat → List String → PyDict →
    Except Unit (List String × PyDict)
  | _, 0, missing, result => .ok (missing, result)
  | idx, fuel + 1, missing, result =>
    if missing.isEmpty then .ok (missing, result)
    else
      match resps idx with
      | .err => .error ()
      | .noJson => translateRounds resps (idx + 1) fuel missing result
      | .parsed data =>
        let good := (data.filter (fun p => validRu p.2)).map (fun p => (p.1, pyStrip p.2))
        let bad := (data.filter (fun p => !validRu p.2)).map Prod.fst
        translateRounds resps (idx + 1) fuel bad (dupdate result good)

/-- `DeepSeekClient.translate` (`ai.py` lines 143–196), over an explicit cache
state (`CITY_TRANSLATIONS` at module scope in the source) and the chat oracle
`resps`. Returns the mapping handed back to the caller together with the cache
after the call, or an error when a chat exception escaped. -/
def translate (jp_terms : List String) (cache : PyDict) (resps : Nat → RoundResp)
    (max_retries : Nat := 2) : Except Unit (PyDict × PyDict) :=
  let to_do := jp_terms.filter (fun t => !(t = "") && !(dmem cache t))
  if to_do.isEmpty then
    .ok (jp_terms.foldl (fun acc t => dset acc t (dget cache t t)) [], cache)
  else
    match translateRounds resps 0 (max_retries + 1) to_do [] with
    | .error e => .error e
    | .ok (missing, result) =>
      let cache' := dupdate cache result
      -- `for jp in missing: result[jp] = jp` (dead for the returned value:
      -- the return expression below reads only the updated cache)
      let _result' := missing.foldl (fun acc jp => dset acc jp jp) result
      .ok (jp_terms.foldl (fun acc t => dset acc t (dget cache' t t)) [], cache')

/-! ## `services/telegram.py`: `TelegramClient` -/

/-- One attempted network send (an aiogram Bot API call), recorded in order:
`photo c` is `bot.send_photo(..., caption=c)`, `message` is
`bot.send_message(...)`. -/
inductive SendEvent where
  | photo : Option String → SendEvent
  | message : SendEvent
deriving DecidableEq

/-- Trace of the network send attempts made so far by the Telegram client. -/
structure TgState where
  calls : List SendEvent
deriving DecidableEq

/-- `TelegramClient.send_message` (`telegram.py` lines 46–67): empty text
short-circuits to `False` with no network attempt; otherwise one send attempt
happens, whose success is `oracle n` for the `n`-th attempt of the run (a
transport exception is caught and reported as `False`). -/
def send_message (oracle : Nat → Bool) (st : TgState) (text : String) :
    Bool × TgState :=
  if text = "" then (false, st)
  else (oracle st.calls.length, ⟨st.calls ++ [SendEvent.message]⟩)

/-- `TelegramClient.send_photo` (`telegram.py` lines 69–95): empty photo bytes
short-circuit to `False` with no network attempt; otherwise one photo send
attempt happens, with the given caption. -/
def send_photo (oracle : Nat → Bool) (st : TgState) (photo : List UInt8)
    (caption : Option String) : Bool × TgState :=
  if photo = [] then (false, st)
  else (oracle st.calls.length, ⟨st.calls ++ [SendEvent.photo caption]⟩)

/-- `TelegramClient.send_weather_report` (`telegram.py` lines 97–117): try the
combined image+caption send; if it reports failure and the summary is
non-empty, send the photo captionless, then the summary as a text message, and
report success. -/
def send_weather_report (oracle : Nat → Bool) (st : TgState) (summary : String)
    (photo : List UInt8) : Bool × TgState :=
  let r1 := send_photo oracle st photo (some summary)
  if r1.1 = false ∧ summary ≠ "" then
    let r2 := send_photo oracle r1.2 photo none
    let r3 := send_message oracle r2.2 summary
    (true, r3.2)
  else r1

/-! ## `services/browser.py`: `BrowserScraper.process` -/

/-- One scraped `.weather-forecast-plate` tile, as produced by
`WEATHER_SCRAPE_JS` (each field defaults to `''` when missing). -/
structure RawTile where
  name : String
  alt : String
  max : String
deriving DecidableEq

/-- `CityWeather` of `nhk_weather/core/models.py`. -/
structure CityWeather where
  jp : String
  ru : String
  max_c : String
  alt : String
deriving DecidableEq

/-- The externally observable steps of `BrowserScraper.process`, in order. -/
inductive ProcEvent where
  | navigate : ProcEvent
  | waitForSelector : ProcEvent
  | scrape : ProcEvent
  | translateCall : List String → ProcEvent
  | domReplace : ProcEvent
  | applyStyles : ProcEvent
  | screenshot : ProcEvent
deriving DecidableEq

/-- `BrowserScraper.process` (`browser.py` lines 130–178), over the tile list
`raw_data` returned by the page's scrape script, the injected translate
capability modelled by the mapping it returns, and the captured screenshot
bytes. Returns the outcome (an error when `raise RuntimeError('No weather
tiles found')` fires) together with the ordered trace of steps performed. -/
def process (raw_data : List RawTile) (translate_func : List String → PyDict)
    (shot : List UInt8) :
    Except String (List CityWeather × List UInt8) × List ProcEvent :=
  let ev0 := [ProcEvent.navigate, ProcEvent.waitForSelector, ProcEvent.scrape]
  if raw_data = [] then (.error "No weather tiles found", ev0)
  else
    let jp_names := (raw_data.filter (fun r => !(r.name = ""))).map RawTile.name
    let mapping := translate_func jp_names
    let weather_data := (raw_data.filter (fun r => !(r.name = ""))).map
      (fun r => CityWeather.mk r.name (dget mapping r.name r.name)
        (if r.max ≠ "-" then r.max else "") r.alt)
    (.ok (weather_data, shot),
      ev0 ++ [ProcEvent.translateCall jp_names, ProcEvent.domReplace,
              ProcEvent.applyStyles, ProcEvent.screenshot])

/-! ## `run.py`: `WeatherReporter._categorize_weather` -/

/-- `pat.isPrefixOf l ||` somewhere later: `pat` occurs as a contiguous run in
`l`. -/
def listHasRun (l pat : List Char) : Bool :=
  match l with
  | [] => pat.isEmpty
  | _ :: tl => pat.isPrefixOf l || listHasRun tl pat

/-- Python's substring test `needle in hay`. -/
def containsSub (hay needle : String) : Bool :=
  listHasRun hay.data needle.data

/-- `WeatherReporter._categorize_weather` (`run.py` lines 30–53): ordered
substring checks over the icon alt text, falling through to the input. -/
def _categorize_weather (alt : String) : String :=
  if containsSub alt "雷" then "гроза"
  else if containsSub alt "雪" then "снег"
  else if containsSub alt "晴れ時々くもり" then "солнечно, временами облачно"
  else if containsSub alt "くもり時々雨" then "облачно, временами дождь"
  else if containsSub alt "雨時々やむ" then "дождь с прояснениями"
  else if containsSub alt "雨" then "дождь"
  else if containsSub alt "晴" then "солнечно"
  else if containsSub alt "くも" || containsSub alt "曇" then "облачно"
  else alt

/-- The classifier's pattern list in source order (the two cloudy patterns of
the final `or`-test listed one after the other), paired with the category each
returns. Written from the spec's reading of the classifier as a first-match
table, to be compared against `_categorize_weather`. -/
def conditionPatterns : List (String × String) :=
  [("雷", "гроза"), ("雪", "снег"),
   ("晴れ時々くもり", "солнечно, временами облачно"),
   ("くもり時々雨", "облачно, временами дождь"),
   ("雨時々やむ", "дождь с прояснениями"),
   ("雨", "дождь"), ("晴", "солнечно"),
   ("くも", "облачно"), ("曇", "облачно")]

/-- First-match-wins reading of the classifier: the category of the first
pattern occurring in the input, the input itself when none does. -/
def firstMatchCategorize (alt : String) : String :=
  match conditionPatterns.find? (fun p => containsSub alt p.1) with
  | some p => p.2
  | none => alt

/-! ## Dictionary lemmas -/

theorem dlookup_map_set (d : PyDict) (k v : String) :
    dlookup (d.map (fun p => if p.1 = k then (k, v) else p)) k
      = if (dlookup d k).isSome then some v else none := by
  induction d with
  | nil => simp [dlookup]
  | cons p tl ih =>
    by_cases h : p.1 = k
    · simp [dlookup, h]
    · simp [dlookup, h, ih]

theorem dlookup_append_right (d e : PyDict) (k : String)
    (h : dlookup d k = none) : dlookup (d ++ e) k = dlookup e k := by
  induction d with
  | nil => simp
  | cons p tl ih =>
    by_cases hp : p.1 = k
    · simp [dlookup, hp] at h
    · simp only [dlookup, hp, if_false, List.cons_append] at h ⊢
      exact ih h

theorem dlookup_dset_self (d : PyDict) (k v : String) :
    dlookup (dset d k v) k = some v := by
  unfold dset
  split
  · rename_i h
    rw [dlookup_map_set, if_pos h]
  · rename_i h
    rw [dlookup_append_right]
    · simp [dlookup]
    · cases hd : dlookup d k
      · rfl
      · exact absurd (by simp [hd]) h

theorem dlookup_map_set_ne (d : PyDict) (k v k' : String) (h : k' ≠ k) :
    dlookup (d.map (fun p => if p.1 = k then (k, v) else p)) k' = dlookup d k' := by
  induction d with
  | nil => rfl
  | cons p tl ih =>
    rw [List.map_cons]
    by_cases hp : p.1 = k
    · rw [if_pos hp]
      have hpk' : ¬p.1 = k' := by rw [hp]; exact Ne.symm h
      simp [dlookup, Ne.symm h, hpk', ih]
    · rw [if_neg hp]
      by_cases hp' : p.1 = k'
      · simp [dlookup, hp']
      · simp [dlookup, hp', ih]

theorem dlookup_append_left (d e : PyDict) (k : String) (x : String)
    (h : dlookup d k = some x) : dlookup (d ++ e) k = some x := by
  induction d with
  | nil => simp [dlookup] at h
  | cons p tl ih =>
    by_cases hp : p.1 = k
    · simp_all [dlookup]
    · simp only [dlookup, hp, if_false, List.cons_append] at h ⊢
      exact ih h

theorem dlookup_dset_ne (d : PyDict) (k v k' : String) (h : k' ≠ k) :
    dlookup (dset d k v) k' = dlookup d k' := by
  unfold dset
  split
  · exact dlookup_map_set_ne d k v k' h
  · cases hd : dlookup d k'
    · rw [dlookup_append_right _ _ _ hd]
      simp [dlookup, Ne.symm h]
    · exact dlookup_append_left _ _ _ _ hd

theorem mem_dset (d : PyDict) (k v : String) (q : String × String)
    (h : q ∈ dset d k v) : q ∈ d ∨ q = (k, v) := by
  unfold dset at h
  split at h
  · rcases List.mem_map.mp h with ⟨p, hp, hq⟩
    by_cases hk : p.1 = k
    · right
      rw [if_pos hk] at hq
      exact hq.symm
    · left
      rw [if_neg hk] at hq
      exact hq ▸ hp
  · rcases List.mem_append.mp h with h | h
    · exact Or.inl h
    · right; simpa using h

theorem mem_dupdate (d : PyDict) (other : List (String × String))
    (q : String × String) (h : q ∈ dupdate d other) : q ∈ d ∨ q ∈ other := by
  induction other generalizing d with
  | nil => exact Or.inl h
  | cons p tl ih =>
    rcases ih (dset d p.1 p.2) h with h' | h'
    · rcases mem_dset d p.1 p.2 q h' with h'' | h''
      · exact Or.inl h''
      · exact Or.inr (by simp [h''])
    · exact Or.inr (List.mem_cons_of_mem _ h')

theorem dlookup_dupdate_of_keys_ne (d : PyDict) (other : List (String × String))
    (k : String) (h : ∀ p ∈ other, p.1 ≠ k) :
    dlookup (dupdate d other) k = dlookup d k := by
  induction other generalizing d with
  | nil => rfl
  | cons p tl ih =>
    have h1 : dlookup (dupdate (dset d p.1 p.2) tl) k = dlookup (dset d p.1 p.2) k :=
      ih _ (fun q hq => h q (List.mem_cons_of_mem _ hq))
    have h2 : dupdate d (p :: tl) = dupdate (dset d p.1 p.2) tl := rfl
    rw [h2, h1, dlookup_dset_ne _ _ _ _ (Ne.symm (h p (List.mem_cons_self _ _)))]

/-! ## Lemmas on `translate` -/

theorem dlookup_retfold (c : PyDict) (terms : List String) (acc : PyDict) (t : String) :
    dlookup (terms.foldl (fun acc t => dset acc t (dget c t t)) acc) t
      = if t ∈ terms then some (dget c t t) else dlookup acc t := by
  induction terms generalizing acc with
  | nil => simp
  | cons a tl ih =>
    rw [List.foldl_cons, ih]
    by_cases htl : t ∈ tl
    · simp [htl]
    · by_cases hta : t = a
      · subst hta
        simp [htl, dlookup_dset_self]
      · simp [htl, hta, dlookup_dset_ne _ _ _ _ hta]

theorem translate_ok_ret (jp_terms : List String) (cache : PyDict)
    (resps : Nat → RoundResp) (max_retries : Nat) (ret cache' : PyDict)
    (heq : translate jp_terms cache resps max_retries = .ok (ret, cache')) :
    ∀ t, dlookup ret t = if t ∈ jp_terms then some (dget cache' t t) else none := by
  intro t
  unfold translate at heq
  simp only [] at heq
  split at heq
  · rw [Except.ok.injEq, Prod.mk.injEq] at heq
    rw [← heq.1, ← heq.2, dlookup_retfold]
    simp [dlookup]
  · split at heq
    · exact absurd heq (by simp)
    · rw [Except.ok.injEq, Prod.mk.injEq] at heq
      rw [← heq.1, ← heq.2, dlookup_retfold]
      simp [dlookup]

/-! ## C1 -/

/-- C1: `translate` is total — whenever it returns, the key set of the returned
mapping is exactly the set of input terms, and any input term left unresolved
(absent from the post-call cache) maps to itself (identity fallback). -/
theorem translate_total (jp_terms : List String) (cache : PyDict)
    (resps : Nat → RoundResp) (max_retries : Nat) (ret cache' : PyDict)
    (heq : translate jp_terms cache resps max_retries = .ok (ret, cache')) :
    (∀ t, dmem ret t = true ↔ t ∈ jp_terms)
    ∧ (∀ t ∈ jp_terms, dmem cache' t = false → dlookup ret t = some t) := by
  have h := translate_ok_ret jp_terms cache resps max_retries ret cache' heq
  constructor
  · intro t
    rw [dmem, h t]
    by_cases ht : t ∈ jp_terms <;> simp [ht]
  · intro t ht hc
    rw [h t, if_pos ht, dget]
    rw [dmem] at hc
    cases hl : dlookup cache' t
    · simp
    · simp [hl] at hc

/-- Witness for C1 at a concrete call: translating `["東京"]` against the seed
cache with an oracle that never yields JSON. -/
theorem translate_total_witness :
    (∀ t, dmem [("東京", "Токио")] t = true ↔ t ∈ ["東京"])
    ∧ (∀ t ∈ ["東京"], dmem CITY_TRANSLATIONS t = false →
        dlookup [("東京", "Токио")] t = some t) :=
  translate_total ["東京"] CITY_TRANSLATIONS (fun _ => RoundResp.noJson) 2 _ _ rfl

/-! ## C2 -/

theorem translateRounds_ok_of_no_err (resps : Nat → RoundResp)
    (h : ∀ i, resps i ≠ RoundResp.err) :
    ∀ (fuel idx : Nat) (missing : List String) (result : PyDict),
      ∃ out, translateRounds resps idx fuel missing result = .ok out := by
  intro fuel
  induction fuel with
  | zero => intro idx missing result; exact ⟨_, rfl⟩
  | succ n ih =>
    intro idx missing result
    unfold translateRounds
    split
    · exact ⟨_, rfl⟩
    · cases hr : resps idx with
      | err => exact absurd hr (h idx)
      | noJson => exact ih (idx + 1) missing result
      | parsed data => exact ih (idx + 1) _ _

theorem translate_ok_of_no_err (jp_terms : List String) (cache : PyDict)
    (resps : Nat → RoundResp) (max_retries : Nat)
    (h : ∀ i, resps i ≠ RoundResp.err) :
    ∃ out, translate jp_terms cache resps max_retries = .ok out := by
  unfold translate
  simp only []
  split
  · exact ⟨_, rfl⟩
  · obtain ⟨⟨missing, result⟩, hout⟩ :=
      translateRounds_ok_of_no_err resps h (max_retries + 1) 0
        (jp_terms.filter (fun t => !(t = "") && !(dmem cache t))) []
    rw [hout]
    exact ⟨_, rfl⟩

theorem translateRounds_noJson_step (resps : Nat → RoundResp) (idx fuel : Nat)
    (missing : List String) (result : PyDict)
    (h1 : resps idx = RoundResp.noJson) (h2 : missing ≠ []) :
    translateRounds resps idx (fuel + 1) missing result
      = translateRounds resps (idx + 1) fuel missing result := by
  conv_lhs => rw [translateRounds]
  rw [if_neg (by simpa using h2), h1]

/-- C2 counterexample: with a chat oracle whose very first round raises,
`translate` itself returns the error. A generation-capability failure
propagates out of `translate` (the source wraps only `json.loads` in
`try/except`, not `self.chat`), contradicting the claim that it is caught
inside `translate`. -/
theorem translate_chat_error_escapes :
    translate ["京都"] CITY_TRANSLATIONS (fun _ => RoundResp.err) 2
      = .error () := rfl

/-- C2 (amended): a parse/validation failure of a round (no parsable JSON in
the reply) aborts only that round — the unresolved term set and partial result
carry over unchanged to the next attempt — and when no round's chat call
raises, `translate` always returns normally; a chat error itself, however,
propagates out of `translate` (aborting the whole run at the orchestrator). -/
theorem translate_round_failure_isolated :
    (∀ (jp_terms : List String) (cache : PyDict) (resps : Nat → RoundResp)
        (max_retries : Nat), (∀ i, resps i ≠ RoundResp.err) →
        ∃ out, translate jp_terms cache resps max_retries = .ok out)
    ∧ (∀ (resps : Nat → RoundResp) (idx fuel : Nat) (missing : List String)
        (result : PyDict), resps idx = RoundResp.noJson → missing ≠ [] →
        translateRounds resps idx (fuel + 1) missing result
          = translateRounds resps (idx + 1) fuel missing result) :=
  ⟨fun jp_terms cache resps max_retries h =>
      translate_ok_of_no_err jp_terms cache resps max_retries h,
   fun resps idx fuel missing result h1 h2 =>
      translateRounds_noJson_step resps idx fuel missing result h1 h2⟩

/-- Witness for C2 (amended) at a concrete call: three rounds of unparsable
replies leave `translate` returning normally, each such round carrying the
term set over unchanged. -/
theorem translate_round_failure_isolated_witness :
    (∃ out, translate ["京都"] CITY_TRANSLATIONS (fun _ => RoundResp.noJson) 2
        = .ok out)
    ∧ translateRounds (fun _ => RoundResp.noJson) 0 3 ["京都"] []
        = translateRounds (fun _ => RoundResp.noJson) 1 2 ["京都"] [] :=
  ⟨translate_round_failure_isolated.1 ["京都"] CITY_TRANSLATIONS
      (fun _ => RoundResp.noJson) 2 (fun _ h => RoundResp.noConfusion h),
   translate_round_failure_isolated.2 (fun _ => RoundResp.noJson) 0 2 ["京都"] []
      rfl (by simp)⟩

/-! ## C3 -/

theorem translateRounds_result_keys_fresh (cache : PyDict) (resps : Nat → RoundResp)
    (hresp : ∀ i data, resps i = RoundResp.parsed data →
      ∀ p ∈ data, dmem cache p.1 = false) :
    ∀ (fuel idx : Nat) (missing : List String) (result : PyDict),
      (∀ p ∈ result, dmem cache p.1 = false) →
      ∀ m' r', translateRounds resps idx fuel missing result = .ok (m', r') →
      ∀ p ∈ r', dmem cache p.1 = false := by
  intro fuel
  induction fuel with
  | zero =>
    intro idx missing result hres m' r' heq p hp
    rw [translateRounds, Except.ok.injEq, Prod.mk.injEq] at heq
    exact hres p (heq.2 ▸ hp)
  | succ n ih =>
    intro idx missing result hres m' r' heq p hp
    rw [translateRounds] at heq
    split at heq
    · rw [Except.ok.injEq, Prod.mk.injEq] at heq
      exact hres p (heq.2 ▸ hp)
    · split at heq
      · exact absurd heq (by simp)
      · exact ih _ _ _ hres _ _ heq p hp
      · rename_i data hr
        refine ih _ _ _ ?_ _ _ heq p hp
        intro q hq
        rcases mem_dupdate _ _ _ hq with h' | h'
        · exact hres q h'
        · rcases List.mem_map.mp h' with ⟨w, hw, hwq⟩
          have := hresp idx data hr w (List.mem_filter.mp hw).1
          rw [← hwq]
          exact this

/-- C3 counterexample: the round handler accepts every key of the parsed chat
reply, requested or not, and then `CITY_TRANSLATIONS.update(result)` overwrites
the cache. Translating the uncached term `"京都"` with a reply that maps the
seeded key `"東京"` to the script-valid value `"Москва"` remaps that
pre-existing cache entry — refuting the claim that no existing entry is ever
overwritten with a different value. -/
theorem translate_cache_overwrite :
    dlookup CITY_TRANSLATIONS "東京" = some "Токио"
    ∧ translate ["京都"] CITY_TRANSLATIONS
        (fun _ => RoundResp.parsed [("東京", "Москва")]) 2
        = .ok ([("京都", "京都")], dupdate CITY_TRANSLATIONS [("東京", "Москва")])
    ∧ dlookup (dupdate CITY_TRANSLATIONS [("東京", "Москва")]) "東京" = some "Москва"
    ∧ ("Москва" : String) ≠ "Токио" := by
  refine ⟨rfl, rfl, rfl, ?_⟩
  decide

/-- C3 (amended): cache monotonicity holds provided every parsed chat reply
mentions only keys outside the pre-call cache (in particular, only requested
terms, which are by construction uncached): then every key present in the
cache before the call maps to the same value after it, and the call only adds
new keys. Without that proviso, a reply naming an already-cached key can
overwrite its entry. -/
theorem translate_cache_monotone (jp_terms : List String) (cache : PyDict)
    (resps : Nat → RoundResp) (max_retries : Nat) (ret cache' : PyDict)
    (hresp : ∀ i data, resps i = RoundResp.parsed data →
      ∀ p ∈ data, dmem cache p.1 = false)
    (heq : translate jp_terms cache resps max_retries = .ok (ret, cache')) :
    ∀ k, dmem cache k = true → dlookup cache' k = dlookup cache k := by
  intro k hk
  unfold translate at heq
  simp only [] at heq
  split at heq
  · rw [Except.ok.injEq, Prod.mk.injEq] at heq
    rw [← heq.2]
  · split at heq
    · exact absurd heq (by simp)
    · rename_i missing result hrounds
      rw [Except.ok.injEq, Prod.mk.injEq] at heq
      rw [← heq.2]
      have hfresh : ∀ p ∈ result, dmem cache p.1 = false :=
        translateRounds_result_keys_fresh cache resps hresp _ _ _ []
          (by simp) _ _ hrounds
      apply dlookup_dupdate_of_keys_ne
      intro p hp hpk
      have hf := hfresh p hp
      rw [hpk] at hf
      rw [hf] at hk
      cases hk

/-- Witness for C3 (amended) at a concrete call: translating `"京都"` with a
reply that answers only the requested (uncached) term leaves every seeded
binding intact. -/
theorem translate_cache_monotone_witness :
    dmem CITY_TRANSLATIONS "東京" = true
    ∧ dlookup (dupdate CITY_TRANSLATIONS [("京都", "Киото")]) "東京"
        = dlookup CITY_TRANSLATIONS "東京" :=
  ⟨rfl,
   translate_cache_monotone ["京都"] CITY_TRANSLATIONS
     (fun _ => RoundResp.parsed [("京都", "Киото")]) 2
     [("京都", "Киото")] (dupdate CITY_TRANSLATIONS [("京都", "Киото")])
     (by intro i data h p hp; cases h; revert p hp; decide) rfl "東京" rfl⟩

/-! ## C4 -/

theorem mem_dropWhile_of_neg {c : Char} {p : Char → Bool} {l : List Char}
    (hc : c ∈ l) (hp : p c = false) : c ∈ l.dropWhile p := by
  induction l with
  | nil => cases hc
  | cons a tl ih =>
    rw [List.dropWhile_cons]
    rcases List.mem_cons.mp hc with rfl | h
    · simp [hp]
    · by_cases ha : p a = true
      · simp only [ha, if_true]
        exact ih h
      · simp only [ha, if_false]
        exact List.mem_cons_of_mem _ h

theorem isCyrillicChar_not_whitespace (c : Char) (h : isCyrillicChar c = true) :
    c.isWhitespace = false := by
  cases hw : c.isWhitespace
  · rfl
  · exfalso
    have hc : ((c = ' ' ∨ c = '\t') ∨ c = '\r') ∨ c = '\n' := by
      simpa [Char.isWhitespace] using hw
    rcases hc with ((rfl | rfl) | rfl) | rfl <;> exact absurd h (by decide)

theorem validRu_pyStrip (ru : String) (h : validRu ru = true) :
    validRu (pyStrip ru) = true := by
  unfold validRu hasCyrillic at h ⊢
  rw [Bool.and_eq_true] at h ⊢
  rcases List.any_eq_true.mp h.2 with ⟨c, hc, hcyr⟩
  have hw := isCyrillicChar_not_whitespace c hcyr
  have hmem : c ∈ (pyStrip ru).data := by
    unfold pyStrip
    exact List.mem_reverse.mpr
      (mem_dropWhile_of_neg (List.mem_reverse.mpr (mem_dropWhile_of_neg hc hw)) hw)
  constructor
  · have hne : ¬(pyStrip ru = "") := by
      intro he
      rw [he] at hmem
      cases hmem
    simp [hne]
  · exact List.any_eq_true.mpr ⟨c, hmem, hcyr⟩

theorem translateRounds_result_valid (resps : Nat → RoundResp) :
    ∀ (fuel idx : Nat) (missing : List String) (result : PyDict),
      (∀ p ∈ result, validRu p.2 = true) →
      ∀ m' r', translateRounds resps idx fuel missing result = .ok (m', r') →
      ∀ p ∈ r', validRu p.2 = true := by
  intro fuel
  induction fuel with
  | zero =>
    intro idx missing result hres m' r' heq p hp
    rw [translateRounds, Except.ok.injEq, Prod.mk.injEq] at heq
    exact hres p (heq.2 ▸ hp)
  | succ n ih =>
    intro idx missing result hres m' r' heq p hp
    rw [translateRounds] at heq
    split at heq
    · rw [Except.ok.injEq, Prod.mk.injEq] at heq
      exact hres p (heq.2 ▸ hp)
    · split at heq
      · exact absurd heq (by simp)
      · exact ih _ _ _ hres _ _ heq p hp
      · refine ih _ _ _ ?_ _ _ heq p hp
        intro q hq
        rcases mem_dupdate _ _ _ hq with h' | h'
        · exact hres q h'
        · rcases List.mem_map.mp h' with ⟨w, hw, hwq⟩
          have hv : validRu w.2 = true := by
            have := (List.mem_filter.mp hw).2
            simpa using this
          rw [← hwq]
          exact validRu_pyStrip w.2 hv

/-- C4: script-validity invariant — if every entry of the cache before a
`translate` call has a non-empty value containing a Cyrillic character, the
same holds for every entry after the call: candidate translations are
persisted only after passing `if ru and self._cyrillic_re.search(ru)`, stored
stripped, and the identity fallback is added to the returned mapping only
after the cache update. -/
theorem translate_cache_valid (jp_terms : List String) (cache : PyDict)
    (resps : Nat → RoundResp) (max_retries : Nat) (ret cache' : PyDict)
    (hseed : ∀ p ∈ cache, validRu p.2 = true)
    (heq : translate jp_terms cache resps max_retries = .ok (ret, cache')) :
    ∀ p ∈ cache', validRu p.2 = true := by
  unfold translate at heq
  simp only [] at heq
  split at heq
  · rw [Except.ok.injEq, Prod.mk.injEq] at heq
    rw [← heq.2]
    exact hseed
  · split at heq
    · exact absurd heq (by simp)
    · rename_i missing result hrounds
      rw [Except.ok.injEq, Prod.mk.injEq] at heq
      rw [← heq.2]
      intro p hp
      rcases mem_dupdate _ _ _ hp with h' | h'
      · exact hseed p h'
      · exact translateRounds_result_valid resps _ _ _ [] (by simp) _ _ hrounds p h'

/-- Witness for C4 at a concrete call: the seeded dictionary is script-valid,
and stays so across a `translate` call whose three rounds all return
unparsable replies. -/
theorem translate_cache_valid_witness :
    validRu "Токио" = true :=
  translate_cache_valid ["京都"] CITY_TRANSLATIONS (fun _ => RoundResp.noJson) 2
    [("京都", "京都")] CITY_TRANSLATIONS (by decide) rfl ("東京", "Токио") (by decide)

/-! ## C5 -/

/-- C5 counterexample: with an empty summary but non-empty image bytes,
`send_weather_report` performs the combined photo send (with the empty string
as caption) and reports success — it neither returns `False` nor avoids the
network call, refuting the claimed short-circuit on `empty summary OR empty
image`. -/
theorem deliver_empty_summary_still_sends :
    (send_weather_report (fun _ => true) ⟨[]⟩ "" [0]).1 = true
    ∧ (send_weather_report (fun _ => true) ⟨[]⟩ "" [0]).2.calls
        = [SendEvent.photo (some "")] :=
  ⟨rfl, rfl⟩

/-- C5 (amended): an empty summary string and empty image bytes short-circuit
`send_weather_report` to a reported failure without attempting any network
send call. -/
theorem deliver_both_empty_short_circuits (oracle : Nat → Bool) (st : TgState) :
    send_weather_report oracle st "" [] = (false, st) := rfl

/-! ## C6 -/

/-- C6: delivery fallback — when the combined image+caption send fails and the
summary is non-empty, exactly two further send calls occur, the image without
caption and then the summary as a text message, and the overall result is
success. -/
theorem deliver_fallback (oracle : Nat → Bool) (st : TgState) (summary : String)
    (photo : List UInt8) (hp : photo ≠ []) (hs : summary ≠ "")
    (hfail : oracle st.calls.length = false) :
    send_weather_report oracle st summary photo
      = (true, ⟨st.calls ++ [SendEvent.photo (some summary), SendEvent.photo none,
                             SendEvent.message]⟩) := by
  simp [send_weather_report, send_photo, send_message, hp, hs, hfail]

/-- Witness for C6 at a concrete call: a failing transport, non-empty summary
and image. -/
theorem deliver_fallback_witness :
    send_weather_report (fun _ => false) ⟨[]⟩ "s" [0]
      = (true, ⟨[SendEvent.photo (some "s"), SendEvent.photo none,
                 SendEvent.message]⟩) :=
  deliver_fallback (fun _ => false) ⟨[]⟩ "s" [0] (by decide) (by decide) rfl

/-! ## C7 -/

/-- C7: extraction fatal-empty — when the page yields zero weather tiles,
`process` raises (`RuntimeError('No weather tiles found')`), and its trace
contains neither a call of the translate capability nor a screenshot
capture. -/
theorem process_fatal_on_zero_tiles (translate_func : List String → PyDict)
    (shot : List UInt8) :
    (process [] translate_func shot).1 = .error "No weather tiles found"
    ∧ (∀ ts, ProcEvent.translateCall ts ∉ (process [] translate_func shot).2)
    ∧ ProcEvent.screenshot ∉ (process [] translate_func shot).2 := by
  refine ⟨rfl, ?_, ?_⟩
  · intro ts
    simp [process]
  · simp [process]

/-! ## C10 -/

/-- C10: every record returned by `process` has a non-empty source name —
tiles whose extracted name is empty are dropped from the returned list (while
still counting against the zero-tiles fatal check), so a non-empty page all of
whose tiles have empty names yields `ok` with an empty record list instead of
raising. -/
theorem process_drops_empty_names (raw_data : List RawTile)
    (translate_func : List String → PyDict) (shot : List UInt8)
    (hne : raw_data ≠ []) (hempty : ∀ r ∈ raw_data, r.name = "") :
    (process raw_data translate_func shot).1 = .ok ([], shot)
    ∧ ∀ (raw2 : List RawTile) (f2 : List String → PyDict) (shot2 : List UInt8)
        (out : List CityWeather × List UInt8) (evs : List ProcEvent),
        process raw2 f2 shot2 = (.ok out, evs) → ∀ cw ∈ out.1, cw.jp ≠ "" := by
  constructor
  · unfold process
    rw [if_neg hne]
    have hfil : raw_data.filter (fun r => !(r.name = "")) = [] :=
      List.filter_eq_nil_iff.mpr (fun r hr => by simp [hempty r hr])
    simp [hfil]
  · intro raw2 f2 shot2 out evs heq cw hcw
    unfold process at heq
    split at heq
    · exact absurd heq (by simp)
    · simp only [] at heq
      rw [Prod.mk.injEq, Except.ok.injEq] at heq
      rw [← heq.1] at hcw
      rcases List.mem_map.mp hcw with ⟨r, hr, hrw⟩
      have hname := (List.mem_filter.mp hr).2
      rw [← hrw]
      simpa using hname

/-- Witness for C10 at a concrete page: a single tile with an empty name. -/
theorem process_drops_empty_names_witness :
    (process [RawTile.mk "" "x" "-"] (fun _ => []) [1]).1 = .ok ([], [1])
    ∧ ∀ (raw2 : List RawTile) (f2 : List String → PyDict) (shot2 : List UInt8)
        (out : List CityWeather × List UInt8) (evs : List ProcEvent),
        process raw2 f2 shot2 = (.ok out, evs) → ∀ cw ∈ out.1, cw.jp ≠ "" :=
  process_drops_empty_names [RawTile.mk "" "x" "-"] (fun _ => []) [1]
    (by decide) (by decide)

/-! ## C8 -/

theorem categorize_eq_firstMatch (alt : String) :
    _categorize_weather alt = firstMatchCategorize alt := by
  unfold _categorize_weather firstMatchCategorize conditionPatterns
  cases h1 : containsSub alt "雷" <;>
  cases h2 : containsSub alt "雪" <;>
  cases h3 : containsSub alt "晴れ時々くもり" <;>
  cases h4 : containsSub alt "くもり時々雨" <;>
  cases h5 : containsSub alt "雨時々やむ" <;>
  cases h6 : containsSub alt "雨" <;>
  cases h7 : containsSub alt "晴" <;>
  cases h8 : containsSub alt "くも" <;>
  cases h9 : containsSub alt "曇" <;>
  simp [List.find?, h1, h2, h3, h4, h5, h6, h7, h8, h9]

/-- C8 counterexample: `"雷くもり時々雨"` contains the compound pattern
`"くもり時々雨"`, yet the classifier returns the storm category (the
earlier-listed `"雷"` wins), not the compound category — refuting "for any
input containing a compound pattern, the compound category is returned". -/
theorem categorize_compound_not_always :
    containsSub "雷くもり時々雨" "くもり時々雨" = true
    ∧ _categorize_weather "雷くもり時々雨" = "гроза"
    ∧ ("гроза" : String) ≠ "облачно, временами дождь" :=
  ⟨rfl, rfl, by decide⟩

/-- C8 (amended): the classifier is an ordered first-match-wins pure function
over the fixed pattern list (storm, snow, the compound transitions, rain,
sunny, cloudy, in that order), returning the input unchanged when no pattern
matches; an input containing a compound pattern (e.g. `"くもり時々雨"`) and no
earlier-listed pattern is classified as the compound category, and an input
containing that compound pattern is never classified as the constituent simple
rain category. -/
theorem categorize_first_match :
    (∀ alt, _categorize_weather alt = firstMatchCategorize alt)
    ∧ (∀ alt, (∀ p ∈ conditionPatterns, containsSub alt p.1 = false) →
        _categorize_weather alt = alt)
    ∧ (∀ alt, containsSub alt "くもり時々雨" = true →
        containsSub alt "雷" = false → containsSub alt "雪" = false →
        containsSub alt "晴れ時々くもり" = false →
        _categorize_weather alt = "облачно, временами дождь")
    ∧ (∀ alt, containsSub alt "くもり時々雨" = true →
        _categorize_weather alt ≠ "дождь") := by
  refine ⟨categorize_eq_firstMatch, ?_, ?_, ?_⟩
  · intro alt h
    have h1 : containsSub alt "雷" = false := h ("雷", "гроза") (by simp [conditionPatterns])
    have h2 : containsSub alt "雪" = false := h ("雪", "снег") (by simp [conditionPatterns])
    have h3 : containsSub alt "晴れ時々くもり" = false :=
      h ("晴れ時々くもり", "солнечно, временами облачно") (by simp [conditionPatterns])
    have h4 : containsSub alt "くもり時々雨" = false :=
      h ("くもり時々雨", "облачно, временами дождь") (by simp [conditionPatterns])
    have h5 : containsSub alt "雨時々やむ" = false :=
      h ("雨時々やむ", "дождь с прояснениями") (by simp [conditionPatterns])
    have h6 : containsSub alt "雨" = false := h ("雨", "дождь") (by simp [conditionPatterns])
    have h7 : containsSub alt "晴" = false := h ("晴", "солнечно") (by simp [conditionPatterns])
    have h8 : containsSub alt "くも" = false := h ("くも", "облачно") (by simp [conditionPatterns])
    have h9 : containsSub alt "曇" = false := h ("曇", "облачно") (by simp [conditionPatterns])
    simp [_categorize_weather, h1, h2, h3, h4, h5, h6, h7, h8, h9]
  · intro alt h4 h1 h2 h3
    simp [_categorize_weather, h1, h2, h3, h4]
  · intro alt h4
    unfold _categorize_weather
    split_ifs with g1 g2 g3 <;> decide

/-- Witness for C8 (amended) at concrete inputs: the compound icon text itself
and a pattern-free input. -/
theorem categorize_first_match_witness :
    _categorize_weather "くもり時々雨" = firstMatchCategorize "くもり時々雨"
    ∧ _categorize_weather "x" = "x"
    ∧ _categorize_weather "くもり時々雨" = "облачно, временами дождь"
    ∧ _categorize_weather "くもり時々雨" ≠ "дождь" :=
  ⟨categorize_first_match.1 "くもり時々雨",
   categorize_first_match.2.1 "x" (by decide),
   categorize_first_match.2.2.1 "くもり時々雨" rfl rfl rfl rfl,
   categorize_first_match.2.2.2 "くもり時々雨" rfl⟩

/-! ## C9 -/

theorem categorize_output_cases (s : String) :
    _categorize_weather s = s
    ∨ _categorize_weather s ∈ ["гроза", "снег", "солнечно, временами облачно",
        "облачно, временами дождь", "дождь с прояснениями", "дождь",
        "солнечно", "облачно"] := by
  unfold _categorize_weather
  split_ifs <;> simp

/-- C9: the classifier is idempotent — every canonical output phrase matches
no icon pattern and falls through unchanged, and a fall-through is already a
fixed point, so `categorize (categorize x) = categorize x` for all inputs. -/
theorem categorize_idempotent (alt : String) :
    _categorize_weather (_categorize_weather alt) = _categorize_weather alt := by
  rcases categorize_output_cases alt with h | h
  · rw [h]
    exact h
  · simp only [List.mem_cons, List.not_mem_nil, or_false] at h
    rcases h with h | h | h | h | h | h | h | h <;> rw [h] <;> decide

end NhkWeather
